import Mathlib

/-!
Shallow embedding of the RBAC layer and the order endpoints of the
restaurant-monorepo repository.

The permission model (roles, permissions, ROLE_PERMISSIONS, hasPermission,
hasAnyPermission, hasAllPermissions, getRolePermissions, getNavigationItems)
is translated from the shared-types and rbac library sources.  The order
endpoints (createOrder, updateOrderStatus and the express route pipeline
authorize → validate → controller) are translated from the API sources
(routes/orders.ts, middleware/auth.ts, middleware/validation.ts,
controllers/orderController.ts).  The document store is modelled as an
in-memory list of records; request integers are modelled as naturals and
decimal prices as rationals.
-/

namespace Restaurant

/-- Order status enumeration from shared-types. -/
inductive OrderStatus
  | pending
  | preparing
  | ready
  | served
  | cancelled
deriving DecidableEq, Repr

/-- User roles from shared-types: a closed four-element enumeration. -/
inductive UserRole
  | owner
  | manager
  | chef
  | waiter
deriving DecidableEq, Repr

/-- Permissions from shared-types. -/
inductive Permission
  | VIEW_ORDERS
  | UPDATE_ORDER_STATUS
  | MANAGE_MENU
  | VIEW_REPORTS
  | MANAGE_STAFF
  | PROCESS_PAYMENTS
  | VIEW_CUSTOMER_DATA
deriving DecidableEq, Repr

/-- The ROLE_PERMISSIONS table from shared-types: a fixed record literal
mapping each role to its permission list. -/
def ROLE_PERMISSIONS : UserRole → List Permission
  | .owner =>
      [.VIEW_ORDERS, .UPDATE_ORDER_STATUS, .MANAGE_MENU, .VIEW_REPORTS,
       .MANAGE_STAFF, .PROCESS_PAYMENTS, .VIEW_CUSTOMER_DATA]
  | .manager =>
      [.VIEW_ORDERS, .UPDATE_ORDER_STATUS, .VIEW_REPORTS, .PROCESS_PAYMENTS,
       .VIEW_CUSTOMER_DATA]
  | .chef => [.VIEW_ORDERS, .UPDATE_ORDER_STATUS]
  | .waiter => [.VIEW_ORDERS, .UPDATE_ORDER_STATUS, .VIEW_CUSTOMER_DATA]

/-- hasPermission from the rbac library: membership of the permission in
the role's ROLE_PERMISSIONS entry. -/
def hasPermission (userRole : UserRole) (permission : Permission) : Bool :=
  (ROLE_PERMISSIONS userRole).contains permission

/-- hasAnyPermission from the rbac library: `permissions.some(...)`, a
short-circuiting disjunction over the input list. -/
def hasAnyPermission (userRole : UserRole) (permissions : List Permission) : Bool :=
  permissions.any (fun p => hasPermission userRole p)

/-- hasAllPermissions from the rbac library: `permissions.every(...)`, a
short-circuiting conjunction over the input list. -/
def hasAllPermissions (userRole : UserRole) (permissions : List Permission) : Bool :=
  permissions.all (fun p => hasPermission userRole p)

/-- getRolePermissions from the rbac library: `ROLE_PERMISSIONS[userRole] || []`.
On the closed role enumeration the guard never fires. -/
def getRolePermissions (userRole : UserRole) : List Permission :=
  ROLE_PERMISSIONS userRole

/-! Runtime (untyped) view of the permission helpers.

The TypeScript signatures restrict the role argument to the closed
enumeration, but the static types are erased at runtime: a JavaScript
caller can pass any string.  `ROLE_PERMISSIONS[role]` then evaluates to
`undefined` for an unknown key, and `undefined.includes(...)` throws an
untyped TypeError.  The following definitions embed that runtime
semantics: the role is an arbitrary string and exceptions are modelled
with `Except`. -/

/-- Untyped runtime error raised by JavaScript evaluation. -/
inductive JsError
  | typeError
deriving DecidableEq, Repr

/-- Runtime property lookup `ROLE_PERMISSIONS[role]` for an arbitrary
string key: `undefined` (here `none`) for a key outside the record. -/
def rolePermissionsLookup (role : String) : Option (List Permission) :=
  if role = "owner" then some (ROLE_PERMISSIONS .owner)
  else if role = "manager" then some (ROLE_PERMISSIONS .manager)
  else if role = "chef" then some (ROLE_PERMISSIONS .chef)
  else if role = "waiter" then some (ROLE_PERMISSIONS .waiter)
  else none

/-- hasPermission at runtime: `ROLE_PERMISSIONS[userRole].includes(permission)`.
When the lookup is `undefined`, the `.includes` call throws a TypeError. -/
def hasPermissionDyn (role : String) (permission : Permission) : Except JsError Bool :=
  match rolePermissionsLookup role with
  | none => .error .typeError
  | some rolePermissions => .ok (rolePermissions.contains permission)

/-- hasAnyPermission at runtime: `permissions.some(p => hasPermission(role, p))`.
Short-circuits, and propagates the TypeError thrown by the first call. -/
def hasAnyPermissionDyn (role : String) : List Permission → Except JsError Bool
  | [] => .ok false
  | p :: rest => do
      let b ← hasPermissionDyn role p
      if b then pure true else hasAnyPermissionDyn role rest

/-- hasAllPermissions at runtime: `permissions.every(p => hasPermission(role, p))`.
Short-circuits, and propagates the TypeError thrown by the first call. -/
def hasAllPermissionsDyn (role : String) : List Permission → Except JsError Bool
  | [] => .ok true
  | p :: rest => do
      let b ← hasPermissionDyn role p
      if b then hasAllPermissionsDyn role rest else pure false

/-- getRolePermissions at runtime: `ROLE_PERMISSIONS[userRole] || []`.
The `|| []` guard turns the `undefined` lookup into the empty list, so
this operation never throws. -/
def getRolePermissionsDyn (role : String) : List Permission :=
  (rolePermissionsLookup role).getD []

/-- Navigation entries of the rbac library, tagged with a required
permission and an explicit role allow-list. -/
structure NavigationItem where
  name : String
  href : String
  icon : String
  permission : Permission
  roles : List UserRole
deriving DecidableEq, Repr

/-- The fixed master list allNavItems from getNavigationItems. -/
def allNavItems : List NavigationItem :=
  [ { name := "Dashboard", href := "/dashboard", icon := "📊",
      permission := .VIEW_ORDERS,
      roles := [.owner, .manager, .chef, .waiter] },
    { name := "Orders", href := "/orders", icon := "📋",
      permission := .VIEW_ORDERS,
      roles := [.owner, .manager, .chef, .waiter] },
    { name := "Menu", href := "/menu", icon := "🍽️",
      permission := .MANAGE_MENU,
      roles := [.owner, .manager] },
    { name := "Staff", href := "/staff", icon := "👥",
      permission := .MANAGE_STAFF,
      roles := [.owner] },
    { name := "Reports", href := "/reports", icon := "📈",
      permission := .VIEW_REPORTS,
      roles := [.owner, .manager] },
    { name := "Payments", href := "/payments", icon := "💰",
      permission := .PROCESS_PAYMENTS,
      roles := [.owner, .manager] } ]

/-- getNavigationItems from the rbac library: filters the master list,
keeping the entries whose allow-list contains the role and whose required
permission the role holds. -/
def getNavigationItems (userRole : UserRole) : List NavigationItem :=
  allNavItems.filter
    (fun item => item.roles.contains userRole && hasPermission userRole item.permission)

/-- Authenticated user record as the API middleware sees it after
`authenticate`: the fields relevant to authorization decisions.  The
`permissions` field is the array persisted on the user document at
registration. -/
structure AuthUser where
  id : String
  name : String
  email : String
  role : UserRole
  permissions : List Permission
deriving DecidableEq, Repr

/-- Validation issues produced by the zod schemas of routes/orders.ts.
`zod.parse` collects every issue of the request body / params; the route
then rejects with a single 400 response listing them all. -/
inductive ZodIssue
  | tableNumberTooSmall
  | emptyItems
  | invalidMenuItemId (index : Nat)
  | quantityTooSmall (index : Nat)
  | invalidOrderId
deriving DecidableEq, Repr

/-- ApiError outcomes raised by the middleware and the order controllers
(utils/apiError.ts), distinguished the way the code distinguishes them by
constructor and message. -/
inductive ApiFailure
  | unauthorized
  | forbidden
  | validationFailed (issues : List ZodIssue)
  | menuItemNotFound (menuItemId : String)
  | itemUnavailable (name : String)
  | orderNotFound
deriving DecidableEq, Repr

/-- authorize from middleware/auth.ts: looks the caller's role up in
ROLE_PERMISSIONS and requires every listed permission to be present;
otherwise throws Forbidden.  The persisted `user.permissions` array is
not consulted. -/
def authorize (requiredPermissions : List Permission) (user : AuthUser) :
    Except ApiFailure Unit :=
  let userPermissions := ROLE_PERMISSIONS user.role
  if requiredPermissions.all (fun p => userPermissions.contains p) then .ok ()
  else .error .forbidden

/-- register from controllers/authController.ts: the stored permissions
array is derived from ROLE_PERMISSIONS at the caller's role. -/
def register (id name email : String) (role : UserRole) : AuthUser :=
  { id := id, name := name, email := email, role := role,
    permissions := ROLE_PERMISSIONS role }

/-- Menu item record (shared-types / database schema fields used by the
order endpoints). -/
structure MenuItem where
  id : String
  name : String
  description : String
  price : ℚ
  available : Bool
  prepTime : Nat
deriving DecidableEq, Repr

/-- Order line as stored on an order document. -/
structure OrderItem where
  menuItemId : String
  menuItemName : String
  quantity : Nat
  unitPrice : ℚ
  totalPrice : ℚ
  specialInstructions : Option String
deriving DecidableEq, Repr

/-- Order document. -/
structure Order where
  id : String
  tableNumber : Nat
  items : List OrderItem
  status : OrderStatus
  total : ℚ
  createdAt : Nat
  updatedAt : Nat
  customerName : Option String
  createdBy : Option String
deriving DecidableEq, Repr

/-- One line of a CreateOrderRequest body. -/
structure OrderItemRequest where
  menuItemId : String
  quantity : Nat
  specialInstructions : Option String
deriving DecidableEq, Repr

/-- CreateOrderRequest body from shared-types. -/
structure CreateOrderRequest where
  tableNumber : Nat
  items : List OrderItemRequest
  customerName : Option String
deriving DecidableEq, Repr

/-- The document store visible to the order endpoints: the menu item
collection and the order collection. -/
structure Db where
  menu : List MenuItem
  orders : List Order
deriving DecidableEq, Repr

/-- The 24-hex-character Mongo id format checked by the zod regex in
routes/orders.ts. -/
def isValidObjectId (s : String) : Bool :=
  s.length == 24 &&
    s.toList.all
      (fun c => c.isDigit || (Char.ofNat 97 ≤ c && c ≤ Char.ofNat 102) ||
        (Char.ofNat 65 ≤ c && c ≤ Char.ofNat 70))

/-- Per-element zod issues of the `items` array of createOrderSchema:
each element checks the menuItemId regex and `quantity ≥ 1`. -/
def itemIssues : Nat → List OrderItemRequest → List ZodIssue
  | _, [] => []
  | i, it :: rest =>
      (if isValidObjectId it.menuItemId then [] else [.invalidMenuItemId i]) ++
        (if it.quantity < 1 then [.quantityTooSmall i] else []) ++
        itemIssues (i + 1) rest

/-- Issues collected by parsing a request body against createOrderSchema:
`tableNumber ≥ 1`, `items` non-empty, and the per-element checks. -/
def createOrderIssues (req : CreateOrderRequest) : List ZodIssue :=
  (if req.tableNumber < 1 then [.tableNumberTooSmall] else []) ++
    (if req.items.isEmpty then [.emptyItems] else []) ++
    itemIssues 0 req.items

/-- Validation loop of createOrder in orderController.ts: for each
requested line, look the menu item up by id (404 when absent), reject
unavailable items with a 400, otherwise snapshot name and price, compute
the line total `menuItem.price * item.quantity`, and accumulate the order
total. -/
def buildOrderItems (menu : List MenuItem) :
    List OrderItemRequest → Except ApiFailure (List OrderItem × ℚ)
  | [] => .ok ([], 0)
  | it :: rest =>
      match menu.find? (fun m => m.id == it.menuItemId) with
      | none => .error (.menuItemNotFound it.menuItemId)
      | some m =>
          if !m.available then .error (.itemUnavailable m.name)
          else
            match buildOrderItems menu rest with
            | .error e => .error e
            | .ok (ois, t) =>
                .ok ({ menuItemId := it.menuItemId, menuItemName := m.name,
                       quantity := it.quantity, unitPrice := m.price,
                       totalPrice := m.price * (it.quantity : ℚ),
                       specialInstructions := it.specialInstructions } :: ois,
                     m.price * (it.quantity : ℚ) + t)

/-- Order document produced by `await order.save()` for the fields the
controller passes plus the defaults the Mongoose orderSchema of the
database package supplies: `status` defaults to `pending` (its enum
default) and `timestamps: true` stamps `createdAt` and `updatedAt` at
save time; Mongo assigns the document id (here the `newId` argument).
The auto-generated display `orderNumber` of the pre-save hook is not
modelled — no claim mentions it. -/
def newOrderDoc (newId : String) (tableNumber : Nat) (items : List OrderItem)
    (total : ℚ) (customerName : Option String) (createdBy : Option String)
    (now : Nat) : Order :=
  { id := newId, tableNumber := tableNumber, items := items,
    status := .pending, total := total, createdAt := now, updatedAt := now,
    customerName := customerName, createdBy := createdBy }

/-- createOrder behind its route: zod validation of the body
(createOrderSchema) followed by the controller of orderController.ts. -/
def createOrder (menu : List MenuItem) (req : CreateOrderRequest)
    (createdBy : Option String) (newId : String) (now : Nat) :
    Except ApiFailure Order :=
  match createOrderIssues req with
  | [] =>
      match buildOrderItems menu req.items with
      | .error e => .error e
      | .ok (ois, total) =>
          .ok (newOrderDoc newId req.tableNumber ois total req.customerName
            createdBy now)
  | issue :: rest => .error (.validationFailed (issue :: rest))

/-- POST /orders route pipeline: authenticate (caller given), authorize
with VIEW_ORDERS, validate the body, run the controller; the order is
saved only on success. -/
def createOrderEndpoint (db : Db) (user : AuthUser) (req : CreateOrderRequest)
    (newId : String) (now : Nat) : Db × Except ApiFailure Order :=
  match authorize [.VIEW_ORDERS] user with
  | .error e => (db, .error e)
  | .ok _ =>
      match createOrder db.menu req (some user.id) newId now with
      | .error e => (db, .error e)
      | .ok o => ({ db with orders := db.orders ++ [o] }, .ok o)

/-- Write effect of `findByIdAndUpdate(orderId, then status and updatedAt)`
on the order collection: the matching document gets the requested status
and the fresh timestamp; every other document is untouched. -/
def applyStatusWrite (orderId : String) (newStatus : OrderStatus) (now : Nat)
    (o : Order) : Order :=
  if o.id == orderId then { o with status := newStatus, updatedAt := now }
  else o

/-- Effect of the conditional per-document write on the whole collection. -/
def updateOrderInList (orders : List Order) (orderId : String)
    (newStatus : OrderStatus) (now : Nat) : List Order :=
  orders.map (applyStatusWrite orderId newStatus now)

/-- Lookup of an order document by id. -/
def findOrder (orders : List Order) (orderId : String) : Option Order :=
  orders.find? (fun o => o.id == orderId)

/-- updateOrderStatus from orderController.ts: a single unconditional
`findByIdAndUpdate` setting `status` and `updatedAt`; 404 when the id
matches no order.  The current status of the order is never read or
compared. -/
def updateOrderStatus (db : Db) (orderId : String) (newStatus : OrderStatus)
    (now : Nat) : Db × Except ApiFailure Order :=
  match findOrder db.orders orderId with
  | none => (db, .error .orderNotFound)
  | some o =>
      ({ db with orders := updateOrderInList db.orders orderId newStatus now },
       .ok { o with status := newStatus, updatedAt := now })

/-- PATCH /orders/:id/status route pipeline from routes/orders.ts:
authorize with UPDATE_ORDER_STATUS, validate the id format and the status
enum (the status argument is already a member of the enumeration by
typing), then run the controller. -/
def patchOrderStatus (db : Db) (user : AuthUser) (orderId : String)
    (newStatus : OrderStatus) (now : Nat) : Db × Except ApiFailure Order :=
  match authorize [.UPDATE_ORDER_STATUS] user with
  | .error e => (db, .error e)
  | .ok _ =>
      if isValidObjectId orderId then updateOrderStatus db orderId newStatus now
      else (db, .error (.validationFailed [.invalidOrderId]))

/-- Sum of `unitPrice * quantity` over the lines of an order. -/
def lineTotalsSum (items : List OrderItem) : ℚ :=
  (items.map (fun oi => oi.unitPrice * (oi.quantity : ℚ))).sum

/-- Monetary invariant of an order document: the stored total is the sum
of `unitPrice * quantity` over the lines, and every line's stored total
is its own `unitPrice * quantity`. -/
def moneyInv (o : Order) : Prop :=
  o.total = lineTotalsSum o.items ∧
    ∀ oi ∈ o.items, oi.totalPrice = oi.unitPrice * (oi.quantity : ℚ)

/-! Helper lemmas shared by the claim theorems. -/

lemma authorize_view_ok (u : AuthUser) :
    authorize [.VIEW_ORDERS] u = .ok () := by
  rcases u with ⟨i, n, e, r, ps⟩
  cases r <;> rfl

lemma authorize_update_ok (u : AuthUser) :
    authorize [.UPDATE_ORDER_STATUS] u = .ok () := by
  rcases u with ⟨i, n, e, r, ps⟩
  cases r <;> rfl

lemma findOrder_mem {orders : List Order} {oid : String} {o : Order}
    (h : findOrder orders oid = some o) : o ∈ orders ∧ o.id = oid := by
  unfold findOrder at h
  have hp := List.find?_some h
  simp only [] at hp
  exact ⟨List.mem_of_find?_eq_some h, eq_of_beq hp⟩

lemma findOrder_updateOrderInList (orders : List Order) (oid : String)
    (s : OrderStatus) (t : Nat) :
    findOrder (updateOrderInList orders oid s t) oid =
      (findOrder orders oid).map
        (fun o => { o with status := s, updatedAt := t }) := by
  induction orders with
  | nil => rfl
  | cons o rest ih =>
      unfold findOrder updateOrderInList at ih ⊢
      rw [List.map_cons]
      by_cases h : (o.id == oid) = true
      · have h2 : ((applyStatusWrite oid s t o).id == oid) = true := by
          simp only [applyStatusWrite, if_pos h]
          exact h
        have e1 : List.find? (fun x => x.id == oid)
            (applyStatusWrite oid s t o :: List.map (applyStatusWrite oid s t) rest) =
            some (applyStatusWrite oid s t o) := List.find?_cons_of_pos _ h2
        have e2 : List.find? (fun x => x.id == oid) (o :: rest) = some o :=
          List.find?_cons_of_pos _ h
        rw [e1, e2]
        simp [applyStatusWrite, h]
      · have h2 : ¬ ((applyStatusWrite oid s t o).id == oid) = true := by
          simp only [applyStatusWrite, if_neg h]
          exact h
        have e1 : List.find? (fun x => x.id == oid)
            (applyStatusWrite oid s t o :: List.map (applyStatusWrite oid s t) rest) =
            List.find? (fun x => x.id == oid)
              (List.map (applyStatusWrite oid s t) rest) :=
          List.find?_cons_of_neg _ h2
        have e2 : List.find? (fun x => x.id == oid) (o :: rest) =
            List.find? (fun x => x.id == oid) rest := List.find?_cons_of_neg _ h
        rw [e1, e2]
        exact ih

lemma updateOrderStatus_found {db : Db} {oid : String} {o : Order}
    (s : OrderStatus) (now : Nat) (hfind : findOrder db.orders oid = some o) :
    updateOrderStatus db oid s now =
      ({ db with orders := updateOrderInList db.orders oid s now },
       .ok { o with status := s, updatedAt := now }) := by
  unfold updateOrderStatus
  rw [hfind]

lemma patchOrderStatus_ok (db : Db) (u : AuthUser) (oid : String)
    (s : OrderStatus) (now : Nat) {o : Order}
    (hfind : findOrder db.orders oid = some o)
    (hid : isValidObjectId oid = true) :
    patchOrderStatus db u oid s now =
      ({ db with orders := updateOrderInList db.orders oid s now },
       .ok { o with status := s, updatedAt := now }) := by
  unfold patchOrderStatus
  rw [authorize_update_ok u]
  simp only [hid, if_true]
  exact updateOrderStatus_found s now hfind

lemma patchOrderStatus_error (db : Db) (u : AuthUser) (oid : String)
    (s : OrderStatus) (now : Nat) {e : ApiFailure}
    (h : (patchOrderStatus db u oid s now).2 = .error e) :
    (patchOrderStatus db u oid s now).1 = db := by
  unfold patchOrderStatus at h ⊢
  rw [authorize_update_ok u] at h ⊢
  by_cases hid : isValidObjectId oid
  · simp only [hid, if_true] at h ⊢
    unfold updateOrderStatus at h ⊢
    cases hfind : findOrder db.orders oid with
    | none => rfl
    | some o => rw [hfind] at h; simp at h
  · simp [hid]

lemma patchOrderStatus_notFound (db : Db) (u : AuthUser) (oid : String)
    (s : OrderStatus) (now : Nat) (hid : isValidObjectId oid = true)
    (hfind : findOrder db.orders oid = none) :
    patchOrderStatus db u oid s now = (db, .error .orderNotFound) := by
  unfold patchOrderStatus
  rw [authorize_update_ok u]
  simp only [hid, if_true]
  unfold updateOrderStatus
  rw [hfind]

lemma patchOrderStatus_invalidId (db : Db) (u : AuthUser) (oid : String)
    (s : OrderStatus) (now : Nat) (hid : ¬ isValidObjectId oid = true) :
    patchOrderStatus db u oid s now =
      (db, .error (.validationFailed [.invalidOrderId])) := by
  unfold patchOrderStatus
  rw [authorize_update_ok u]
  rw [if_neg hid]

lemma applyStatusWrite_frame (oid : String) (s : OrderStatus) (now : Nat)
    (x : Order) :
    (applyStatusWrite oid s now x).id = x.id ∧
    (applyStatusWrite oid s now x).tableNumber = x.tableNumber ∧
    (applyStatusWrite oid s now x).items = x.items ∧
    (applyStatusWrite oid s now x).total = x.total ∧
    (applyStatusWrite oid s now x).createdAt = x.createdAt ∧
    (applyStatusWrite oid s now x).customerName = x.customerName ∧
    (applyStatusWrite oid s now x).createdBy = x.createdBy ∧
    (x.id ≠ oid → applyStatusWrite oid s now x = x) ∧
    (x.id = oid → (applyStatusWrite oid s now x).status = s ∧
      (applyStatusWrite oid s now x).updatedAt = now) := by
  unfold applyStatusWrite
  by_cases hc : (x.id == oid) = true
  · have he : x.id = oid := eq_of_beq hc
    simp [hc, he]
  · have he : ¬ x.id = oid := fun h => hc (beq_iff_eq.mpr h)
    simp [hc, he]

lemma patch_preserves_items_total (db : Db) (user : AuthUser) (oid : String)
    (s : OrderStatus) (t : Nat) :
    ∀ o2 ∈ (patchOrderStatus db user oid s t).1.orders,
      ∃ o1 ∈ db.orders, o2.items = o1.items ∧ o2.total = o1.total := by
  intro o2 h2
  by_cases hid : isValidObjectId oid = true
  · cases hfind : findOrder db.orders oid with
    | none =>
        rw [patchOrderStatus_notFound db user oid s t hid hfind] at h2
        exact ⟨o2, h2, rfl, rfl⟩
    | some o =>
        rw [patchOrderStatus_ok db user oid s t hfind hid] at h2
        obtain ⟨x, hx, hmap⟩ := List.mem_map.mp h2
        subst hmap
        obtain ⟨_, _, hit, htot, _⟩ := applyStatusWrite_frame oid s t x
        exact ⟨x, hx, hit, htot⟩
  · rw [patchOrderStatus_invalidId db user oid s t hid] at h2
    exact ⟨o2, h2, rfl, rfl⟩

lemma buildOrderItems_spec (menu : List MenuItem) :
    ∀ (its : List OrderItemRequest) (ois : List OrderItem) (t : ℚ),
      buildOrderItems menu its = .ok (ois, t) →
      t = lineTotalsSum ois ∧
      ∀ oi ∈ ois, oi.totalPrice = oi.unitPrice * (oi.quantity : ℚ) ∧
        ∃ m ∈ menu, m.id = oi.menuItemId ∧ oi.unitPrice = m.price := by
  intro its
  induction its with
  | nil =>
      intro ois t h
      unfold buildOrderItems at h
      simp only [Except.ok.injEq, Prod.mk.injEq] at h
      obtain ⟨h1, h2⟩ := h
      subst h1; subst h2
      exact ⟨by simp [lineTotalsSum], by simp⟩
  | cons a rest ih =>
      intro ois t h
      unfold buildOrderItems at h
      split at h
      · exact Except.noConfusion h
      · rename_i m hf
        split at h
        · exact Except.noConfusion h
        · split at h
          · exact Except.noConfusion h
          · rename_i ois0 t0 hb
            simp only [Except.ok.injEq, Prod.mk.injEq] at h
            obtain ⟨h1, h2⟩ := h
            subst h1; subst h2
            obtain ⟨iht, ihm⟩ := ih ois0 t0 hb
            constructor
            · simp [lineTotalsSum, iht]
            · intro oi hoi
              rcases List.mem_cons.mp hoi with h0 | h0
              · subst h0
                refine ⟨rfl, m, List.mem_of_find?_eq_some hf, ?_, rfl⟩
                have hp := List.find?_some hf
                simp only [] at hp
                exact eq_of_beq hp
              · exact ihm oi h0

lemma buildOrderItems_unavailable (menu : List MenuItem) :
    ∀ its : List OrderItemRequest,
      (∀ it ∈ its, (menu.find? (fun m => m.id == it.menuItemId)).isSome) →
      (∃ it ∈ its, ∃ m, menu.find? (fun m2 => m2.id == it.menuItemId) = some m ∧
        m.available = false) →
      ∃ name, buildOrderItems menu its = .error (.itemUnavailable name) := by
  intro its
  induction its with
  | nil =>
      intro _ hex
      rcases hex with ⟨it, hmem, _⟩
      cases hmem
  | cons a rest ih =>
      intro hall hex
      cases hf : menu.find? (fun m => m.id == a.menuItemId) with
      | none =>
          have hs := hall a (List.mem_cons_self a rest)
          rw [hf] at hs
          simp at hs
      | some m =>
          cases ham : m.available with
          | false =>
              refine ⟨m.name, ?_⟩
              unfold buildOrderItems
              rw [hf]
              simp [ham]
          | true =>
              have hex2 : ∃ it ∈ rest, ∃ m2,
                  menu.find? (fun x => x.id == it.menuItemId) = some m2 ∧
                  m2.available = false := by
                rcases hex with ⟨it, hmem, m2, hfind2, hav2⟩
                rcases List.mem_cons.mp hmem with h0 | h0
                · subst h0
                  rw [hf] at hfind2
                  injection hfind2 with he
                  subst he
                  rw [ham] at hav2
                  cases hav2
                · exact ⟨it, h0, m2, hfind2, hav2⟩
              obtain ⟨name, hrest⟩ :=
                ih (fun it h0 => hall it (List.mem_cons_of_mem a h0)) hex2
              refine ⟨name, ?_⟩
              unfold buildOrderItems
              rw [hf]
              simp [ham, hrest]

lemma itemIssues_quantity (its : List OrderItemRequest) :
    ∀ (k : Nat) (it : OrderItemRequest), it ∈ its → it.quantity < 1 →
      ∃ i, ZodIssue.quantityTooSmall i ∈ itemIssues k its := by
  induction its with
  | nil => intro k it h; cases h
  | cons a rest ih =>
      intro k it hmem hq
      rcases List.mem_cons.mp hmem with h0 | h0
      · subst h0
        refine ⟨k, ?_⟩
        unfold itemIssues
        refine List.mem_append.mpr (Or.inl (List.mem_append.mpr (Or.inr ?_)))
        simp [hq]
      · obtain ⟨i, hi⟩ := ih (k + 1) it h0 hq
        refine ⟨i, ?_⟩
        unfold itemIssues
        exact List.mem_append.mpr (Or.inr hi)

lemma createOrder_validationFailed (menu : List MenuItem)
    (req : CreateOrderRequest) (uid : Option String) (newId : String)
    (now : Nat) (h : createOrderIssues req ≠ []) :
    createOrder menu req uid newId now =
      .error (.validationFailed (createOrderIssues req)) := by
  unfold createOrder
  cases hc : createOrderIssues req with
  | nil => exact absurd hc h
  | cons a l => rfl

lemma createOrder_ok_inv {menu : List MenuItem} {req : CreateOrderRequest}
    {uid : Option String} {newId : String} {now : Nat} {o : Order}
    (h : createOrder menu req uid newId now = .ok o) :
    ∃ ois total, buildOrderItems menu req.items = .ok (ois, total) ∧
      o = newOrderDoc newId req.tableNumber ois total req.customerName uid now := by
  unfold createOrder at h
  split at h
  · split at h
    · exact Except.noConfusion h
    · rename_i ois total hb
      simp only [Except.ok.injEq] at h
      exact ⟨ois, total, hb, h.symm⟩
  · exact Except.noConfusion h

lemma createOrderEndpoint_error (db : Db) (user : AuthUser)
    (req : CreateOrderRequest) (newId : String) (now : Nat) (e : ApiFailure)
    (h : createOrder db.menu req (some user.id) newId now = .error e) :
    createOrderEndpoint db user req newId now = (db, .error e) := by
  unfold createOrderEndpoint
  rw [authorize_view_ok user, h]

lemma createOrderEndpoint_ok (db : Db) (user : AuthUser)
    (req : CreateOrderRequest) (newId : String) (now : Nat) (o : Order)
    (h : createOrder db.menu req (some user.id) newId now = .ok o) :
    createOrderEndpoint db user req newId now =
      ({ db with orders := db.orders ++ [o] }, .ok o) := by
  unfold createOrderEndpoint
  rw [authorize_view_ok user, h]

/-! Concrete fixtures used by counterexamples and witnesses. -/

/-- A 24-hex-character menu item id. -/
def midA : String := "aaaaaaaaaaaaaaaaaaaaaaaa"

/-- A 24-hex-character order id. -/
def oidB : String := "bbbbbbbbbbbbbbbbbbbbbbbb"

/-- A 24-hex-character id for freshly created orders. -/
def oidC : String := "cccccccccccccccccccccccc"

/-- An available menu item. -/
def burger : MenuItem :=
  { id := midA, name := "Burger", description := "Beef burger", price := 10,
    available := true, prepTime := 10 }

/-- A registered chef. -/
def chefUser : AuthUser := register "u1" "Ada" "ada@example.com" .chef

/-- A registered waiter. -/
def waiterUser : AuthUser := register "u2" "Sam" "sam@example.com" .waiter

/-- Another waiter account whose persisted permissions array was cleared,
unlike the one register stores. -/
def waiterBare : AuthUser := { waiterUser with id := "u3", permissions := [] }

/-- An order sitting in the terminal status served. -/
def servedOrder : Order :=
  { id := oidB, tableNumber := 5,
    items := [{ menuItemId := midA, menuItemName := "Burger", quantity := 2,
                unitPrice := 10, totalPrice := 20,
                specialInstructions := none }],
    status := .served, total := 20, createdAt := 0, updatedAt := 0,
    customerName := none, createdBy := none }

/-- An order sitting in the status pending. -/
def pendingOrder : Order := { servedOrder with status := .pending }

/-- A store holding one menu item and one served order. -/
def dbServed : Db := { menu := [burger], orders := [servedOrder] }

/-- A store holding one menu item and one pending order. -/
def dbPending : Db := { menu := [burger], orders := [pendingOrder] }

/-! Theorems for the claims about the permission model. -/

/-- C9: hasAnyPermission is true iff some listed capability is held by the
role and hasAllPermissions is true iff every listed capability is held; on
the empty list they return false and true respectively. -/
theorem claim_C9 (r : UserRole) (ps : List Permission) :
    (hasAnyPermission r ps = true ↔ ∃ p ∈ ps, hasPermission r p = true) ∧
    (hasAllPermissions r ps = true ↔ ∀ p ∈ ps, hasPermission r p = true) ∧
    hasAnyPermission r [] = false ∧ hasAllPermissions r [] = true := by
  refine ⟨?_, ?_, rfl, rfl⟩
  · simp [hasAnyPermission, List.any_eq_true]
  · simp [hasAllPermissions, List.all_eq_true]

/-- C8: a navigation item appears in getNavigationItems(role) exactly when
it is on the master list, the role is in its explicit allow-list, and the
role holds its required permission; in particular an item whose allow-list
excludes the role never appears. -/
theorem claim_C8 (r : UserRole) (item : NavigationItem) :
    item ∈ getNavigationItems r ↔
      item ∈ allNavItems ∧ r ∈ item.roles ∧ hasPermission r item.permission = true := by
  simp only [getNavigationItems, List.mem_filter, Bool.and_eq_true,
    List.contains, List.elem_iff, and_assoc]

/-- C7 amended: getRolePermissions falls back to the empty list on a role
outside the enumeration, and hasAnyPermission / hasAllPermissions return
false / true on the empty capability list without consulting the table;
but hasPermission on such a role — and hasAnyPermission or
hasAllPermissions given a non-empty capability list — throw an untyped
runtime TypeError rather than returning a safe default or a typed
InvalidArgument. -/
theorem claim_C7 (s : String) (p : Permission) (ps : List Permission)
    (h : rolePermissionsLookup s = none) :
    getRolePermissionsDyn s = [] ∧
    hasPermissionDyn s p = .error .typeError ∧
    hasAnyPermissionDyn s [] = .ok false ∧
    hasAllPermissionsDyn s [] = .ok true ∧
    (ps ≠ [] →
      hasAnyPermissionDyn s ps = .error .typeError ∧
      hasAllPermissionsDyn s ps = .error .typeError) := by
  have hp : ∀ q : Permission, hasPermissionDyn s q = .error .typeError := by
    intro q; simp [hasPermissionDyn, h]
  refine ⟨by simp [getRolePermissionsDyn, h], hp p, rfl, rfl, ?_⟩
  intro hne
  cases ps with
  | nil => exact absurd rfl hne
  | cons q rest =>
      constructor
      · show (hasPermissionDyn s q >>= fun b =>
          if b then pure true else hasAnyPermissionDyn s rest) = _
        rw [hp q]; rfl
      · show (hasPermissionDyn s q >>= fun b =>
          if b then hasAllPermissionsDyn s rest else pure false) = _
        rw [hp q]; rfl

/-- Witness for C7 at the concrete unknown role string "admin". -/
theorem claim_C7_witness :
    rolePermissionsLookup "admin" = none ∧
    ([Permission.VIEW_ORDERS] ≠ ([] : List Permission)) ∧
    (getRolePermissionsDyn "admin" = [] ∧
     hasPermissionDyn "admin" Permission.VIEW_ORDERS = .error .typeError ∧
     hasAnyPermissionDyn "admin" [] = .ok false ∧
     hasAllPermissionsDyn "admin" [] = .ok true ∧
     ([Permission.VIEW_ORDERS] ≠ [] →
       hasAnyPermissionDyn "admin" [Permission.VIEW_ORDERS] = .error .typeError ∧
       hasAllPermissionsDyn "admin" [Permission.VIEW_ORDERS] = .error .typeError)) :=
  ⟨rfl, by simp, claim_C7 "admin" Permission.VIEW_ORDERS [Permission.VIEW_ORDERS] rfl⟩

/-- Counterexample for C7 as stated: on the role string "admin", which
lies outside the closed enumeration, hasPermission evaluates to an
untyped runtime TypeError — not a safe default and not a typed
InvalidArgument — and so do hasAnyPermission and hasAllPermissions on a
non-empty capability list. -/
theorem claim_C7_cex :
    (hasPermissionDyn "admin" Permission.VIEW_ORDERS,
     hasAnyPermissionDyn "admin" [Permission.VIEW_ORDERS],
     hasAllPermissionsDyn "admin" [Permission.VIEW_ORDERS]) =
    (.error .typeError, .error .typeError, .error .typeError) := rfl

/-- C10: authorize allows a request exactly when every required permission
is in the fixed ROLE_PERMISSIONS entry of the caller's role, and its
decision depends only on the role: two users with the same role receive
the same decision whatever permissions arrays their records carry. -/
theorem claim_C10 (req : List Permission) (u1 u2 : AuthUser)
    (h : u1.role = u2.role) :
    authorize req u1 = authorize req u2 ∧
    (authorize req u1 = .ok () ↔ ∀ p ∈ req, p ∈ ROLE_PERMISSIONS u1.role) := by
  constructor
  · simp [authorize, h]
  · have hc : (authorize req u1 = .ok ()) ↔
        (req.all (fun p => (ROLE_PERMISSIONS u1.role).contains p) = true) := by
      by_cases hb : req.all (fun p => (ROLE_PERMISSIONS u1.role).contains p) = true <;>
        simp [authorize, hb]
    rw [hc, List.all_eq_true]
    simp [List.contains, List.elem_iff]

/-- Witness for C10: a waiter account as register persists it and a waiter
account whose stored permissions array is empty receive the same
authorization decision. -/
theorem claim_C10_witness :
    waiterUser.role = waiterBare.role ∧
    (authorize [Permission.UPDATE_ORDER_STATUS] waiterUser =
       authorize [Permission.UPDATE_ORDER_STATUS] waiterBare ∧
     (authorize [Permission.UPDATE_ORDER_STATUS] waiterUser = .ok () ↔
       ∀ p ∈ [Permission.UPDATE_ORDER_STATUS],
         p ∈ ROLE_PERMISSIONS waiterUser.role)) :=
  ⟨rfl, claim_C10 [Permission.UPDATE_ORDER_STATUS] waiterUser waiterBare rfl⟩

/-! Theorems for the claims about the order status endpoints. -/

/-- C1 amended: the status endpoint rejects a request only when the id is
malformed or matches no order; for any existing order, any requested
status in the enumeration is applied regardless of the current status —
pairs outside the four-edge transition table, same-state no-ops, skips
and moves out of served or cancelled all succeed and change the stored
status, for every acting role; no IllegalTransition rejection exists. -/
theorem claim_C1 (db : Db) (user : AuthUser) (oid : String) (s : OrderStatus)
    (now : Nat) (o : Order) (hfind : findOrder db.orders oid = some o)
    (hid : isValidObjectId oid = true) :
    (patchOrderStatus db user oid s now).2 =
      .ok { o with status := s, updatedAt := now } ∧
    findOrder (patchOrderStatus db user oid s now).1.orders oid =
      some { o with status := s, updatedAt := now } := by
  rw [patchOrderStatus_ok db user oid s now hfind hid]
  refine ⟨rfl, ?_⟩
  show findOrder (updateOrderInList db.orders oid s now) oid = _
  rw [findOrder_updateOrderInList, hfind]
  rfl

/-- Witness for C1: a chef moves a served order back to pending and the
request succeeds with the stored status changed. -/
theorem claim_C1_witness :
    findOrder dbServed.orders oidB = some servedOrder ∧
    isValidObjectId oidB = true ∧
    ((patchOrderStatus dbServed chefUser oidB .pending 5).2 =
        .ok { servedOrder with status := .pending, updatedAt := 5 } ∧
      findOrder (patchOrderStatus dbServed chefUser oidB .pending 5).1.orders
          oidB =
        some { servedOrder with status := .pending, updatedAt := 5 }) :=
  ⟨rfl, rfl, claim_C1 dbServed chefUser oidB .pending 5 servedOrder rfl rfl⟩

/-- Counterexample for C1 as stated: the pair (served, pending) is not an
edge of the transition table, yet the endpoint accepts the request and
the stored status changes — it is not rejected as IllegalTransition and
the status does not stay served. -/
theorem claim_C1_cex :
    servedOrder.status = .served ∧
    (patchOrderStatus dbServed chefUser oidB .pending 5).2 =
      .ok { servedOrder with status := .pending, updatedAt := 5 } ∧
    (patchOrderStatus dbServed chefUser oidB .pending 5).1.orders.map
        Order.status = [.pending] :=
  ⟨rfl, rfl, rfl⟩

/-- C2 amended: invoking a status transition is gated only by the
UPDATE_ORDER_STATUS capability check of the authorize middleware; every
role of the enumeration holds that capability, so the gate always passes,
and no per-edge role restriction exists — an actor of any role succeeds
on any requested transition of an existing order. -/
theorem claim_C2 (db : Db) (user : AuthUser) (oid : String) (s : OrderStatus)
    (now : Nat) (o : Order) (hfind : findOrder db.orders oid = some o)
    (hid : isValidObjectId oid = true) :
    (∀ r : UserRole, hasPermission r .UPDATE_ORDER_STATUS = true) ∧
    authorize [.UPDATE_ORDER_STATUS] user = .ok () ∧
    (patchOrderStatus db user oid s now).2 =
      .ok { o with status := s, updatedAt := now } := by
  refine ⟨fun r => by cases r <;> rfl, authorize_update_ok user, ?_⟩
  rw [patchOrderStatus_ok db user oid s now hfind hid]

/-- Witness for C2: a waiter performs the pending → preparing transition
and the request succeeds. -/
theorem claim_C2_witness :
    findOrder dbPending.orders oidB = some pendingOrder ∧
    isValidObjectId oidB = true ∧
    ((∀ r : UserRole, hasPermission r .UPDATE_ORDER_STATUS = true) ∧
      authorize [.UPDATE_ORDER_STATUS] waiterUser = .ok () ∧
      (patchOrderStatus dbPending waiterUser oidB .preparing 3).2 =
        .ok { pendingOrder with status := .preparing, updatedAt := 3 }) :=
  ⟨rfl, rfl,
    claim_C2 dbPending waiterUser oidB .preparing 3 pendingOrder rfl rfl⟩

/-- Counterexample for C2 as stated: the edge pending → preparing allows
only chef, manager and owner, yet a waiter's request succeeds instead of
failing with Forbidden. -/
theorem claim_C2_cex :
    waiterUser.role = .waiter ∧
    (patchOrderStatus dbPending waiterUser oidB .preparing 3).2 =
      .ok { pendingOrder with status := .preparing, updatedAt := 3 } :=
  ⟨rfl, rfl⟩

/-- C4: a successful status transition writes exactly the status and
updatedAt fields, together in one update; every other field of the
updated order and every other order of the collection are unchanged, and
on any failure the store is unchanged. -/
theorem claim_C4 (db : Db) (user : AuthUser) (oid : String) (s : OrderStatus)
    (now : Nat) :
    (∀ x : Order,
      (applyStatusWrite oid s now x).id = x.id ∧
      (applyStatusWrite oid s now x).tableNumber = x.tableNumber ∧
      (applyStatusWrite oid s now x).items = x.items ∧
      (applyStatusWrite oid s now x).total = x.total ∧
      (applyStatusWrite oid s now x).createdAt = x.createdAt ∧
      (applyStatusWrite oid s now x).customerName = x.customerName ∧
      (applyStatusWrite oid s now x).createdBy = x.createdBy ∧
      (x.id ≠ oid → applyStatusWrite oid s now x = x) ∧
      (x.id = oid → (applyStatusWrite oid s now x).status = s ∧
        (applyStatusWrite oid s now x).updatedAt = now)) ∧
    (∀ o, findOrder db.orders oid = some o → isValidObjectId oid = true →
      patchOrderStatus db user oid s now =
        ({ db with orders := db.orders.map (applyStatusWrite oid s now) },
         .ok { o with status := s, updatedAt := now })) ∧
    (∀ e, (patchOrderStatus db user oid s now).2 = .error e →
      (patchOrderStatus db user oid s now).1 = db) := by
  refine ⟨applyStatusWrite_frame oid s now, ?_, ?_⟩
  · intro o hfind hid
    exact patchOrderStatus_ok db user oid s now hfind hid
  · intro e he
    exact patchOrderStatus_error db user oid s now he

/-- C5 amended: the status write is unconditional — it never reads or
compares the order's pre-transition status — so two transition requests
issued against the same pre-state both commit: each returns success, the
later write silently overwrites the earlier one, and no StaleState or
IllegalTransition is reported to either caller; lost updates are not
prevented. -/
theorem claim_C5 (db : Db) (u1 u2 : AuthUser) (oid : String)
    (s1 s2 : OrderStatus) (t1 t2 : Nat) (o : Order)
    (hfind : findOrder db.orders oid = some o)
    (hid : isValidObjectId oid = true) :
    (patchOrderStatus db u1 oid s1 t1).2 =
      .ok { o with status := s1, updatedAt := t1 } ∧
    (patchOrderStatus (patchOrderStatus db u1 oid s1 t1).1 u2 oid s2 t2).2 =
      .ok { o with status := s2, updatedAt := t2 } ∧
    findOrder
        (patchOrderStatus (patchOrderStatus db u1 oid s1 t1).1 u2 oid s2
          t2).1.orders oid =
      some { o with status := s2, updatedAt := t2 } := by
  have h1 := patchOrderStatus_ok db u1 oid s1 t1 hfind hid
  have hfind1 : findOrder (patchOrderStatus db u1 oid s1 t1).1.orders oid =
      some { o with status := s1, updatedAt := t1 } := by
    rw [h1]
    show findOrder (updateOrderInList db.orders oid s1 t1) oid = _
    rw [findOrder_updateOrderInList, hfind]
    rfl
  have h2 := patchOrderStatus_ok (patchOrderStatus db u1 oid s1 t1).1 u2 oid
    s2 t2 hfind1 hid
  refine ⟨by rw [h1], by rw [h2], ?_⟩
  rw [h2]
  show findOrder (updateOrderInList _ oid s2 t2) oid = _
  rw [findOrder_updateOrderInList, hfind1]
  rfl

/-- Witness for C5: from the same pending order, a chef's request for
preparing and a waiter's request for cancelled both succeed. -/
theorem claim_C5_witness :
    findOrder dbPending.orders oidB = some pendingOrder ∧
    isValidObjectId oidB = true ∧
    ((patchOrderStatus dbPending chefUser oidB .preparing 1).2 =
        .ok { pendingOrder with status := .preparing, updatedAt := 1 } ∧
      (patchOrderStatus (patchOrderStatus dbPending chefUser oidB .preparing
            1).1 waiterUser oidB .cancelled 2).2 =
        .ok { pendingOrder with status := .cancelled, updatedAt := 2 } ∧
      findOrder
          (patchOrderStatus (patchOrderStatus dbPending chefUser oidB
            .preparing 1).1 waiterUser oidB .cancelled 2).1.orders oidB =
        some { pendingOrder with status := .cancelled, updatedAt := 2 }) :=
  ⟨rfl, rfl,
    claim_C5 dbPending chefUser waiterUser oidB .preparing .cancelled 1 2
      pendingOrder rfl rfl⟩

/-- Counterexample for C5 as stated: two transition requests against the
same pending order, targeting preparing and cancelled, both succeed — the
loser never observes StaleState or IllegalTransition and the first
committed transition is silently overwritten. -/
theorem claim_C5_cex :
    pendingOrder.status = .pending ∧
    (patchOrderStatus dbPending chefUser oidB .preparing 1).2 =
      .ok { pendingOrder with status := .preparing, updatedAt := 1 } ∧
    (patchOrderStatus (patchOrderStatus dbPending chefUser oidB .preparing
          1).1 waiterUser oidB .cancelled 2).2 =
      .ok { pendingOrder with status := .cancelled, updatedAt := 2 } ∧
    (patchOrderStatus (patchOrderStatus dbPending chefUser oidB .preparing
          1).1 waiterUser oidB .cancelled 2).1.orders.map Order.status =
      [.cancelled] :=
  ⟨rfl, rfl, rfl, rfl⟩

/-- A create-order request for two burgers at table 3. -/
def burgerReq : CreateOrderRequest :=
  { tableNumber := 3,
    items := [{ menuItemId := midA, quantity := 2,
                specialInstructions := none }],
    customerName := none }

/-- The order document that burgerReq creates. -/
def burgerOrder : Order :=
  { id := oidC, tableNumber := 3,
    items := [{ menuItemId := midA, menuItemName := "Burger", quantity := 2,
                unitPrice := 10, totalPrice := 20,
                specialInstructions := none }],
    status := .pending, total := 20, createdAt := 9, updatedAt := 9,
    customerName := none, createdBy := some "u1" }

/-- C3: every order returned by createOrder satisfies the monetary
invariant — its total is the sum of unitPrice times quantity over its
lines and each line's stored total is its unitPrice times quantity — with
every unitPrice snapshotted from the referenced menu item's price; and
status transitions never touch the lines or the total of any stored
order, so the equality persists afterwards. -/
theorem claim_C3 (menu : List MenuItem) (req : CreateOrderRequest)
    (uid : Option String) (newId : String) (now : Nat) (o : Order)
    (h : createOrder menu req uid newId now = .ok o) :
    moneyInv o ∧
    (∀ oi ∈ o.items, ∃ m ∈ menu, m.id = oi.menuItemId ∧ oi.unitPrice = m.price) ∧
    (∀ (db : Db) (user : AuthUser) (oid2 : String) (s : OrderStatus) (t : Nat),
      ∀ o2 ∈ (patchOrderStatus db user oid2 s t).1.orders,
        ∃ o1 ∈ db.orders, o2.items = o1.items ∧ o2.total = o1.total) := by
  obtain ⟨ois, total, hb, ho⟩ := createOrder_ok_inv h
  subst ho
  obtain ⟨ht, hitems⟩ := buildOrderItems_spec menu req.items ois total hb
  exact ⟨⟨ht, fun oi hoi => (hitems oi hoi).1⟩,
    fun oi hoi => (hitems oi hoi).2,
    fun db user oid2 s t => patch_preserves_items_total db user oid2 s t⟩

/-- Witness for C3: creating the two-burger order at the concrete menu
yields total 20 with the invariant holding. -/
theorem claim_C3_witness :
    createOrder [burger] burgerReq (some "u1") oidC 9 = .ok burgerOrder ∧
    (moneyInv burgerOrder ∧
      (∀ oi ∈ burgerOrder.items, ∃ m ∈ [burger],
        m.id = oi.menuItemId ∧ oi.unitPrice = m.price) ∧
      (∀ (db : Db) (user : AuthUser) (oid2 : String) (s : OrderStatus)
          (t : Nat),
        ∀ o2 ∈ (patchOrderStatus db user oid2 s t).1.orders,
          ∃ o1 ∈ db.orders, o2.items = o1.items ∧ o2.total = o1.total)) := by
  have h : createOrder [burger] burgerReq (some "u1") oidC 9 = .ok burgerOrder := by
    show Except.ok _ = _
    norm_num [newOrderDoc, burger, burgerReq, burgerOrder, midA, oidC,
      Order.mk.injEq, OrderItem.mk.injEq]
  exact ⟨h, claim_C3 [burger] burgerReq (some "u1") oidC 9 burgerOrder h⟩

/-- C6: order creation rejects an empty line list (EmptyOrder issue), a
line with quantity below one (InvalidQuantity issue), and — once
validation passes and every reference resolves — a line whose menu item
is unavailable (ItemUnavailable); on success the new order is stored with
status pending and both timestamps stamped to now, and on every failure
the store is left unchanged. -/
theorem claim_C6 (db : Db) (user : AuthUser) (req : CreateOrderRequest)
    (newId : String) (now : Nat) :
    (req.items = [] →
      (createOrderEndpoint db user req newId now).2 =
        .error (.validationFailed (createOrderIssues req)) ∧
      ZodIssue.emptyItems ∈ createOrderIssues req) ∧
    ((∃ it ∈ req.items, it.quantity < 1) →
      (createOrderEndpoint db user req newId now).2 =
        .error (.validationFailed (createOrderIssues req)) ∧
      ∃ i, ZodIssue.quantityTooSmall i ∈ createOrderIssues req) ∧
    (createOrderIssues req = [] →
      (∀ it ∈ req.items,
        (db.menu.find? (fun m => m.id == it.menuItemId)).isSome) →
      (∃ it ∈ req.items, ∃ m,
        db.menu.find? (fun m2 => m2.id == it.menuItemId) = some m ∧
        m.available = false) →
      ∃ name, (createOrderEndpoint db user req newId now).2 =
        .error (.itemUnavailable name)) ∧
    (∀ o, (createOrderEndpoint db user req newId now).2 = .ok o →
      o.status = .pending ∧ o.createdAt = now ∧ o.updatedAt = now ∧
      (createOrderEndpoint db user req newId now).1.orders =
        db.orders ++ [o]) ∧
    (∀ e, (createOrderEndpoint db user req newId now).2 = .error e →
      (createOrderEndpoint db user req newId now).1 = db) := by
  refine ⟨?_, ?_, ?_, ?_, ?_⟩
  · intro hempty
    have hmem : ZodIssue.emptyItems ∈ createOrderIssues req := by
      simp [createOrderIssues, hempty, itemIssues]
    have hne : createOrderIssues req ≠ [] := by
      intro h0
      rw [h0] at hmem
      cases hmem
    have hco := createOrder_validationFailed db.menu req (some user.id) newId
      now hne
    rw [createOrderEndpoint_error db user req newId now _ hco]
    exact ⟨rfl, hmem⟩
  · rintro ⟨it, hmemit, hq⟩
    obtain ⟨i, hi⟩ := itemIssues_quantity req.items 0 it hmemit hq
    have hmem : ZodIssue.quantityTooSmall i ∈ createOrderIssues req := by
      unfold createOrderIssues
      exact List.mem_append.mpr (Or.inr hi)
    have hne : createOrderIssues req ≠ [] := by
      intro h0
      rw [h0] at hmem
      cases hmem
    have hco := createOrder_validationFailed db.menu req (some user.id) newId
      now hne
    rw [createOrderEndpoint_error db user req newId now _ hco]
    exact ⟨rfl, i, hmem⟩
  · intro hval hall hex
    obtain ⟨name, hb⟩ := buildOrderItems_unavailable db.menu req.items hall hex
    have hco : createOrder db.menu req (some user.id) newId now =
        .error (.itemUnavailable name) := by
      unfold createOrder
      rw [hval, hb]
    rw [createOrderEndpoint_error db user req newId now _ hco]
    exact ⟨name, rfl⟩
  · intro o hok
    cases hco : createOrder db.menu req (some user.id) newId now with
    | error e =>
        rw [createOrderEndpoint_error db user req newId now e hco] at hok
        exact absurd hok (by simp)
    | ok o2 =>
        rw [createOrderEndpoint_ok db user req newId now o2 hco] at hok
        have ho : o2 = o := by simpa using hok
        subst ho
        obtain ⟨ois, total, hb, hdoc⟩ := createOrder_ok_inv hco
        subst hdoc
        rw [createOrderEndpoint_ok db user req newId now _ hco]
        exact ⟨rfl, rfl, rfl, rfl⟩
  · intro e he
    cases hco : createOrder db.menu req (some user.id) newId now with
    | error e2 =>
        rw [createOrderEndpoint_error db user req newId now e2 hco]
    | ok o2 =>
        rw [createOrderEndpoint_ok db user req newId now o2 hco] at he
        exact absurd he (by simp)

end Restaurant
